import Mathlib

/-!
Shallow embedding of the capacity-reservation and booking-lifecycle core of the
event-ticketing platform: the Redis-backed distributed lock and sliding-window
rate limiter (`RedisClient` in src/booking-service/src/models/eventCapacityLog.model.ts),
the NATS client subscription dispatch (src/unnamed/part_005, `NatsClient`),
the capacity reserve/release RPC handlers (src/unnamed/part_001), and the
`BookingService` operations (src/booking-service/src/types/message.types.ts).

Machine numbers are modelled as `Int`: timestamps in milliseconds, ticket
counts, and monetary amounts in integer cents; fallible operations return
`Except String`.
-/

deriving instance DecidableEq for Except

namespace Vervious

/-! ## Redis key-value store and the lock primitives

Embeds `RedisClient.acquireLock` / `releaseLock`
(src/booking-service/src/models/eventCapacityLog.model.ts lines 168-203).
The store is an association list from keys to string values. -/

abbrev RedisStore := List (String × String)

def storeGet (st : RedisStore) (k : String) : Option String :=
  match st.find? (fun p => p.1 == k) with
  | some p => some p.2
  | none => none

def storeDel (st : RedisStore) (k : String) : RedisStore :=
  st.filter (fun p => !(p.1 == k))

/-- SET key value PX ttl NX: sets the key only if absent, reporting success. -/
def storeSetNX (st : RedisStore) (k v : String) : RedisStore × Bool :=
  match storeGet st k with
  | some _ => (st, false)
  | none => ((k, v) :: st, true)

/-- Embeds `RedisClient.acquireLock(key, value, ttl, maxRetries)`: an atomic
set-if-absent of the owner token under `lock:` ++ key.  The retry loop with
random jitter re-runs the same set-if-absent against the store; against a fixed
store every retry returns the same answer, so the embedding performs it once. -/
def acquireLock (st : RedisStore) (key value : String) : RedisStore × Bool :=
  storeSetNX st ("lock:" ++ key) value

/-- Embeds `RedisClient.releaseLock(key, value)`
(eventCapacityLog.model.ts lines 190-203): a Lua script executed atomically,
deleting `lock:` ++ key only when its current value equals `value`, returning
whether a deletion happened. -/
def releaseLock (st : RedisStore) (key value : String) : RedisStore × Bool :=
  let lockKey := "lock:" ++ key
  match storeGet st lockKey with
  | some cur => if cur == value then (storeDel st lockKey, true) else (st, false)
  | none => (st, false)

/-! ## Sliding-window rate limiter

Embeds `RedisClient.rateLimit(key, maxRequests, windowMs)`
(eventCapacityLog.model.ts lines 248-266).  The backing sorted set is the list
of member scores (timestamps in ms); `zremrangebyscore key -inf windowStart`
removes every member with score less than or equal to `now - windowMs`,
`zadd` inserts the current timestamp, `zcard` counts, and `expire` refreshes
the key's TTL to `ceil(windowMs / 1000)` seconds. -/

structure RateLimitResult where
  entries : List Int
  ttlSeconds : Int
  allowed : Bool
  deriving DecidableEq, Repr

def rateLimit (entries : List Int) (now maxRequests windowMs : Int) :
    RateLimitResult :=
  let windowStart := now - windowMs
  let pruned := entries.filter (fun t => windowStart < t)
  let afterAdd := pruned ++ [now]
  { entries := afterAdd
    ttlSeconds := Int.ediv (windowMs + 999) 1000
    allowed := (afterAdd.length : Int) ≤ maxRequests }

/-- Runs a sequence of `rateLimit` calls at the given call times against one
key, all with the same limit and window, threading the stored set through and
collecting each call's verdict. -/
def rateLimitSeq (entries : List Int) (times : List Int)
    (maxRequests windowMs : Int) : List Bool :=
  match times with
  | [] => []
  | t :: ts =>
    let r := rateLimit entries t maxRequests windowMs
    r.allowed :: rateLimitSeq r.entries ts maxRequests windowMs

/-! ## NATS client subscription dispatch

Embeds `NatsClient.subscribe` and its message loop (src/unnamed/part_005
lines 119-148).  A handler either succeeds or throws; a thrown error is caught
inside the loop and logged, and the loop moves on to the next message. -/

structure SubscribeOutcome (M : Type) where
  registered : Bool
  loopStarted : Bool
  delivered : List M
  errorsLogged : Nat
  deriving DecidableEq, Repr

/-- The body of the async arrow function at part_005 lines 134-144: iterate the
subscription's messages in receipt order, decode, invoke the callback, catch
and log any error, and continue with the next message.  Returns the messages
passed to the callback and the number of logged handler errors. -/
def messageLoop {M : Type} (callback : M → Except String Unit) :
    List M → List M × Nat
  | [] => ([], 0)
  | m :: ms =>
    let rest := messageLoop callback ms
    match callback m with
    | Except.ok _ => (m :: rest.1, rest.2)
    | Except.error _ => (m :: rest.1, rest.2 + 1)

/-- Embeds `NatsClient.subscribe(subject, callback)` (part_005 lines 119-148)
applied to the messages that later arrive on the subject.  The subscription is
created and registered, but the message-processing arrow function at lines
134-144 is an expression that is never invoked (it lacks the trailing call
parentheses that `subscribeRequestReply` has at line 198), so the loop never
starts and no arriving message is passed to the callback. -/
def subscribe {M : Type} (connected : Bool) (_incoming : List M)
    (_callback : M → Except String Unit) : Except String (SubscribeOutcome M) :=
  if connected then
    Except.ok { registered := true, loopStarted := false,
                delivered := [], errorsLogged := 0 }
  else
    Except.error "Nats connection not established"

/-! ## Data model

Event, Booking, capacity-ledger and user records
(src/unnamed/part_010 event schema, booking model and
`IBooking` in src/booking-service/src/models/eventCapacityLog.model.ts,
`EventCapacityLog` schema, user model).  Timestamps are milliseconds (`Int`);
monetary amounts are integer cents, so the source's rounding tolerance of
`0.01` currency units is `1` cent. -/

inductive BookingStatus where
  | pending
  | confirmed
  | cancelled
  deriving DecidableEq, Repr

inductive PayStatus where
  | pending
  | paid
  | failed
  | refunded
  deriving DecidableEq, Repr

inductive LedgerOp where
  | reserve
  | release
  deriving DecidableEq, Repr

structure EventRec where
  id : Nat
  capacity : Int
  availableTickets : Int
  price : Int
  isActive : Bool
  dateTime : Int
  deriving DecidableEq, Repr

structure UserRec where
  id : Nat
  isActive : Bool
  deriving DecidableEq, Repr

structure BookingRec where
  id : Nat
  eventId : Nat
  userId : Nat
  ticketQuantity : Int
  totalAmount : Int
  status : BookingStatus
  paymentStatus : PayStatus
  paymentTransactionId : Option String
  bookingDate : Int
  cancellationReason : Option String
  cancelledAt : Option Int
  createdAt : Int
  deriving DecidableEq, Repr

structure LedgerEntry where
  eventId : Nat
  operation : LedgerOp
  quantity : Int
  timestamp : Int
  bookingId : Option Nat
  deriving DecidableEq, Repr

/-- The persistent and shared state the booking core operates on: the Event,
User, Booking and capacity-ledger collections, the set of currently held
Redis lock keys, the rate-limiter windows keyed by rate key, and the id the
next saved booking receives. -/
structure SysState where
  events : List EventRec
  users : List UserRec
  bookings : List BookingRec
  ledger : List LedgerEntry
  heldLocks : List String
  rateWindows : List (String × List Int)
  nextBookingId : Nat
  deriving DecidableEq, Repr

def findEvent (s : SysState) (eid : Nat) : Option EventRec :=
  s.events.find? (fun e => e.id == eid)

def findBooking (s : SysState) (bid : Nat) : Option BookingRec :=
  s.bookings.find? (fun b => b.id == bid)

def findUser (s : SysState) (uid : Nat) : Option UserRec :=
  s.users.find? (fun u => u.id == uid)

/-- Mongo `findByIdAndUpdate` on the Event collection: rewrite the documents
matching the id through `f`. -/
def updEvent (evs : List EventRec) (eid : Nat) (f : EventRec → EventRec) :
    List EventRec :=
  evs.map (fun e => if e.id == eid then f e else e)

/-- Mongo `findByIdAndUpdate` on the Booking collection. -/
def updBooking (bs : List BookingRec) (bid : Nat) (f : BookingRec → BookingRec) :
    List BookingRec :=
  bs.map (fun b => if b.id == bid then f b else b)

/-- The `availableTickets` of the event with the given id, when it exists. -/
def availOf (s : SysState) (eid : Nat) : Option Int :=
  (findEvent s eid).map EventRec.availableTickets

/-- The `capacity` of the event with the given id, when it exists. -/
def capOf (s : SysState) (eid : Nat) : Option Int :=
  (findEvent s eid).map EventRec.capacity

def getWindow (ws : List (String × List Int)) (k : String) : List Int :=
  match ws.find? (fun p => p.1 == k) with
  | some p => p.2
  | none => []

def setWindow (ws : List (String × List Int)) (k : String) (v : List Int) :
    List (String × List Int) :=
  if ws.any (fun p => p.1 == k) then
    ws.map (fun p => if p.1 == k then (k, v) else p)
  else
    (k, v) :: ws

/-- A `RedisClient.rateLimit` call made by the booking service against the
shared state's window for `key`. -/
def sysRateLimit (s : SysState) (key : String) (maxRequests windowMs now : Int) :
    SysState × Bool :=
  let r := rateLimit (getWindow s.rateWindows key) now maxRequests windowMs
  ({ s with rateWindows := setWindow s.rateWindows key r.entries }, r.allowed)

/-! ## Capacity Coordinator RPC handlers (src/unnamed/part_001) -/

/-- Embeds the `EVENT_CAPACITY_RESERVE` handler (part_001 lines 391-439):
one atomic `findOneAndUpdate` whose filter requires both the event id and
`availableTickets ≥ quantity`, decrementing `availableTickets` by `quantity`
and returning the updated document; when no document matches, it replies
with the error and changes nothing.  On success the reply carries the new
`availableTickets` as `remaining`. -/
def reserveCapacityHandler (s : SysState) (eventId : Nat) (quantity : Int) :
    SysState × Except String Int :=
  match s.events.find? (fun e => e.id == eventId && quantity ≤ e.availableTickets) with
  | some e =>
    let evs := updEvent s.events eventId
      (fun ev => { ev with availableTickets := ev.availableTickets - quantity })
    ({ s with events := evs }, Except.ok (e.availableTickets - quantity))
  | none => (s, Except.error "Insufficient available tickets or event not found")

/-- Embeds the `EVENT_CAPACITY_RELEASE` handler (part_001 lines 442-491):
loads the event inside a transaction and, when it exists, adds `quantity` to
the event's `capacity` field (`event.capacity += requestData.quantity`); the
`availableTickets` field is not touched and no ledger entry is appended.
When the event is missing the transaction aborts with "Event not found". -/
def releaseCapacityHandler (s : SysState) (eventId : Nat) (quantity : Int) :
    SysState × Except String Unit :=
  match findEvent s eventId with
  | none => (s, Except.error "Event not found")
  | some _ =>
    let evs := updEvent s.events eventId
      (fun ev => { ev with capacity := ev.capacity + quantity })
    ({ s with events := evs }, Except.ok ())

/-! ## Booking Lifecycle Orchestrator
(`BookingService` in src/booking-service/src/types/message.types.ts)

The reserve/release RPCs issued over NATS are handled by the
`EVENT_CAPACITY_RESERVE` / `EVENT_CAPACITY_RELEASE` subscriptions of the same
service (src/unnamed/part_001) against the same Event collection, so the
embedding dispatches them directly to the handler functions.  Calls on the
same event serialize on the `event:` lock, so concurrent calls execute their
critical sections one after the other. -/

structure CreateInput where
  eventId : Nat
  userId : Nat
  ticketQuantity : Int
  totalAmount : Int
  deriving DecidableEq, Repr

/-- Embeds the tail of `BookingService.createBooking` after a successful
`EVENT_CAPACITY_RESERVE` reply (message.types.ts lines 240-296): persist the
new booking with `pending` status and `pending` payment status, then apply the
service's own `Event.findByIdAndUpdate` with `$inc availableTickets` by
`-ticketQuantity` (lines 253-255), append a `reserve` ledger entry carrying
the booking id, and publish the created notification (best effort, no state). -/
def createBookingAfterReserve (s : SysState) (now : Int) (inp : CreateInput) :
    SysState × BookingRec :=
  let b : BookingRec :=
    { id := s.nextBookingId, eventId := inp.eventId, userId := inp.userId
      ticketQuantity := inp.ticketQuantity, totalAmount := inp.totalAmount
      status := BookingStatus.pending, paymentStatus := PayStatus.pending
      paymentTransactionId := none, bookingDate := now
      cancellationReason := none, cancelledAt := none, createdAt := now }
  let evs := updEvent s.events inp.eventId
    (fun ev => { ev with availableTickets := ev.availableTickets - inp.ticketQuantity })
  let entry : LedgerEntry :=
    { eventId := inp.eventId, operation := LedgerOp.reserve
      quantity := inp.ticketQuantity, timestamp := now, bookingId := some b.id }
  ({ s with bookings := s.bookings ++ [b], events := evs
            ledger := s.ledger ++ [entry]
            nextBookingId := s.nextBookingId + 1 }, b)

/-- Embeds the critical section of `BookingService.createBooking`
(message.types.ts lines 202-297), run while holding the `event:` lock:
validate the event (exists, active, in the future), the user (exists, active),
the remaining tickets and the total amount (within one cent of
`price * ticketQuantity`); then issue the reserve RPC, failing the whole call
when it fails, and otherwise persist the booking, the local decrement and the
ledger entry. -/
def createBookingLocked (s : SysState) (now : Int) (inp : CreateInput) :
    SysState × Except String BookingRec :=
  match findEvent s inp.eventId with
  | none => (s, Except.error "Event not found")
  | some event =>
    if !event.isActive then (s, Except.error "Event is not active")
    else if event.dateTime ≤ now then (s, Except.error "Cannot book past events")
    else
      match findUser s inp.userId with
      | none => (s, Except.error "User not found or inactive")
      | some user =>
        if !user.isActive then (s, Except.error "User not found or inactive")
        else if event.availableTickets < inp.ticketQuantity then
          (s, Except.error ("Only " ++ toString event.availableTickets ++ " tickets available"))
        else if 1 < |inp.totalAmount - event.price * inp.ticketQuantity| then
          (s, Except.error "Invalid total amount")
        else
          let rpc := reserveCapacityHandler s inp.eventId inp.ticketQuantity
          match rpc.2 with
          | Except.error _ => (rpc.1, Except.error "Failed to reserve tickets")
          | Except.ok _ =>
            let r := createBookingAfterReserve rpc.1 now inp
            (r.1, Except.ok r.2)

/-- Embeds `BookingService.createBooking` (message.types.ts lines 188-305):
take a rate-limit token for `user:` ++ userId ++ `:book` (5 calls per 10 s),
then run the critical section under `withLock` on `event:` ++ eventId,
releasing the lock on every exit path.  Acquisition fails when the key is
already held, after the bounded retries. -/
def createBooking (s : SysState) (now : Int) (inp : CreateInput) :
    SysState × Except String BookingRec :=
  let rl := sysRateLimit s ("user:" ++ toString inp.userId ++ ":book") 5 10000 now
  if !rl.2 then
    (rl.1, Except.error "Too many booking attempts. Please try again later.")
  else
    let lockKey := "event:" ++ toString inp.eventId
    if rl.1.heldLocks.contains lockKey then
      (rl.1, Except.error ("Failed to acquire lock for key: " ++ lockKey))
    else
      let sL := { rl.1 with heldLocks := lockKey :: rl.1.heldLocks }
      let r := createBookingLocked sL now inp
      ({ r.1 with heldLocks := r.1.heldLocks.erase lockKey }, r.2)

/-- Embeds the critical section of `BookingService.cancelBooking`
(message.types.ts lines 325-426), run while holding the `booking:` lock:
load the booking (must exist, belong to the caller, and not already be
cancelled) and its event (must exist and be at least 24 hours away); issue the
release RPC, whose failure is logged and does not block the cancellation; then
set the booking to `cancelled` with `paymentStatus` mapped `paid → refunded`
and otherwise `failed`, apply the service's own `$inc availableTickets` by
`+ticketQuantity` (lines 387-389), and append a `release` ledger entry. -/
def cancelBookingLocked (s : SysState) (now : Int) (bookingId userId : Nat)
    (reason : Option String) : SysState × Except String BookingRec :=
  match findBooking s bookingId with
  | none => (s, Except.error "Booking not found")
  | some booking =>
    if booking.userId ≠ userId then
      (s, Except.error "Unauthorized to cancel this booking")
    else if booking.status = BookingStatus.cancelled then
      (s, Except.error "Booking is already cancelled")
    else
      match findEvent s booking.eventId with
      | none => (s, Except.error "Associated event not found")
      | some event =>
        if event.dateTime - now < 86400000 then
          (s, Except.error "Cannot cancel booking less than 24 hours before event")
        else
          let rpc := releaseCapacityHandler s booking.eventId booking.ticketQuantity
          let newPay := if booking.paymentStatus = PayStatus.paid
                        then PayStatus.refunded else PayStatus.failed
          let updated := { booking with status := BookingStatus.cancelled
                                        paymentStatus := newPay
                                        cancellationReason := reason
                                        cancelledAt := some now }
          let s1 := { rpc.1 with bookings := updBooking rpc.1.bookings bookingId (fun _ => updated) }
          let evs := updEvent s1.events booking.eventId
            (fun ev => { ev with availableTickets := ev.availableTickets + booking.ticketQuantity })
          let entry : LedgerEntry :=
            { eventId := booking.eventId, operation := LedgerOp.release
              quantity := booking.ticketQuantity, timestamp := now
              bookingId := some booking.id }
          ({ s1 with events := evs, ledger := s1.ledger ++ [entry] }, Except.ok updated)

/-- Embeds `BookingService.cancelBooking` (message.types.ts lines 309-427):
take a rate-limit token for `user:` ++ userId ++ `:cancel` (3 calls per 30 s),
then run the critical section under `withLock` on `booking:` ++ bookingId,
releasing the lock on every exit path. -/
def cancelBooking (s : SysState) (now : Int) (bookingId userId : Nat)
    (reason : Option String) : SysState × Except String BookingRec :=
  let rl := sysRateLimit s ("user:" ++ toString userId ++ ":cancel") 3 30000 now
  if !rl.2 then
    (rl.1, Except.error "Too many cancellation attempts. Please try again later.")
  else
    let lockKey := "booking:" ++ toString bookingId
    if rl.1.heldLocks.contains lockKey then
      (rl.1, Except.error ("Failed to acquire lock for key: " ++ lockKey))
    else
      let sL := { rl.1 with heldLocks := lockKey :: rl.1.heldLocks }
      let r := cancelBookingLocked sL now bookingId userId reason
      ({ r.1 with heldLocks := r.1.heldLocks.erase lockKey }, r.2)

/-- Embeds `BookingService.confirmPayment` (message.types.ts lines 570-609):
one unconditional `findByIdAndUpdate` that sets `status` to `confirmed`,
`paymentStatus` to `paid` and records the transaction id, with no lock and no
check of the current status; it fails only when the booking does not exist. -/
def confirmPayment (s : SysState) (bookingId : Nat) (txId : String) :
    SysState × Except String BookingRec :=
  match findBooking s bookingId with
  | none => (s, Except.error "Booking not found")
  | some booking =>
    let updated := { booking with status := BookingStatus.confirmed
                                  paymentStatus := PayStatus.paid
                                  paymentTransactionId := some txId }
    ({ s with bookings := updBooking s.bookings bookingId (fun _ => updated) },
      Except.ok updated)

/-- One iteration of the sweep loop in
`BookingService.cleanupExpiredBookings` (message.types.ts lines 670-687):
`withLock` on `booking:` ++ id and, inside it, a call to
`this.cancelBooking(id, userId, "Automatic cancellation - payment timeout")` —
which itself starts by acquiring the very same `booking:` lock, already held
by the sweep, so that inner acquisition fails after its retries and
`cancelBooking` throws; the error propagates out of the outer `withLock`
(which releases the lock) and is caught and logged by the loop. -/
def cleanupOne (s : SysState) (now : Int) (b : BookingRec) : SysState :=
  let lockKey := "booking:" ++ toString b.id
  if s.heldLocks.contains lockKey then s
  else
    let sL := { s with heldLocks := lockKey :: s.heldLocks }
    let r := cancelBooking sL now b.id b.userId
      (some "Automatic cancellation - payment timeout")
    { r.1 with heldLocks := r.1.heldLocks.erase lockKey }

/-- Embeds `BookingService.cleanupExpiredBookings` (message.types.ts lines
660-694): query once for bookings with `status = pending` created more than
one hour before `now`, then run the sweep body on each, errors logged and
swallowed per booking. -/
def cleanupExpiredBookings (s : SysState) (now : Int) : SysState :=
  let cutoff := now - 3600000
  let expired := s.bookings.filter
    (fun b => b.status == BookingStatus.pending && b.createdAt < cutoff)
  expired.foldl (fun st b => cleanupOne st now b) s

/-! ## Reserve sequences (for the capacity bound) -/

/-- Runs `n` successive `EVENT_CAPACITY_RESERVE` calls of quantity 1 against
one event, threading the state and counting the calls that succeed. -/
def runReserves (s : SysState) (eid : Nat) : Nat → SysState × Nat
  | 0 => (s, 0)
  | Nat.succ n =>
    let r := reserveCapacityHandler s eid 1
    let rest := runReserves r.1 eid n
    (rest.1, rest.2 + if r.2.isOk then 1 else 0)

/-! ## Concrete scenario states -/

/-- Scenario A state: an active future event with capacity 1 and one
available ticket priced 5000 cents, and two active users. -/
def sScenA : SysState :=
  { events := [{ id := 1, capacity := 1, availableTickets := 1, price := 5000,
                 isActive := true, dateTime := 1000000000 }]
    users := [{ id := 10, isActive := true }, { id := 11, isActive := true }]
    bookings := [], ledger := [], heldLocks := [], rateWindows := []
    nextBookingId := 1 }

/-- Scenario B state: an active event 48 hours away with 10 of 10 tickets
available at price 50 (5000 cents), and one active user. -/
def sScenB : SysState :=
  { events := [{ id := 1, capacity := 10, availableTickets := 10, price := 5000,
                 isActive := true, dateTime := 172800000 }]
    users := [{ id := 10, isActive := true }]
    bookings := [], ledger := [], heldLocks := [], rateWindows := []
    nextBookingId := 1 }

/-- Round-trip state for the reserve/release handlers: capacity 10, 5
available. -/
def sRoundTrip : SysState :=
  { events := [{ id := 1, capacity := 10, availableTickets := 5, price := 5000,
                 isActive := true, dateTime := 1000000000 }]
    users := [], bookings := [], ledger := [], heldLocks := [], rateWindows := []
    nextBookingId := 1 }

/-- Sweep state: one pending booking created at time 0 (stale at
`now = 7200000`, two hours later), its event far in the future with tickets
already held for it. -/
def sSweep : SysState :=
  { events := [{ id := 1, capacity := 10, availableTickets := 8, price := 5000,
                 isActive := true, dateTime := 1000000000 }]
    users := [{ id := 10, isActive := true }]
    bookings := [{ id := 1, eventId := 1, userId := 10, ticketQuantity := 2,
                   totalAmount := 10000, status := BookingStatus.pending,
                   paymentStatus := PayStatus.pending,
                   paymentTransactionId := none, bookingDate := 0,
                   cancellationReason := none, cancelledAt := none,
                   createdAt := 0 }]
    ledger := [], heldLocks := [], rateWindows := [], nextBookingId := 2 }

/-- Witness event for the capacity bound: 3 of 10 tickets available. -/
def eBound : EventRec :=
  { id := 1, capacity := 10, availableTickets := 3, price := 5000,
    isActive := true, dateTime := 1000000000 }

/-- Witness state holding only `eBound`. -/
def sBound : SysState :=
  { events := [eBound], users := [], bookings := [], ledger := [],
    heldLocks := [], rateWindows := [], nextBookingId := 1 }

/-- Frame-claim state: an event with 4 tickets available. -/
def sFrame : SysState :=
  { events := [{ id := 1, capacity := 10, availableTickets := 4, price := 5000,
                 isActive := true, dateTime := 1000000000 }]
    users := [], bookings := [], ledger := [], heldLocks := [], rateWindows := []
    nextBookingId := 7 }

/-- A state holding one cancelled booking (with its event), for the
terminality claims. -/
def sCancelled : SysState :=
  { events := [{ id := 1, capacity := 10, availableTickets := 10, price := 5000,
                 isActive := true, dateTime := 1000000000 }]
    users := [{ id := 10, isActive := true }]
    bookings := [{ id := 1, eventId := 1, userId := 10, ticketQuantity := 2,
                   totalAmount := 10000, status := BookingStatus.cancelled,
                   paymentStatus := PayStatus.failed,
                   paymentTransactionId := none, bookingDate := 0,
                   cancellationReason := some "user requested",
                   cancelledAt := some 50, createdAt := 0 }]
    ledger := [], heldLocks := [], rateWindows := [], nextBookingId := 2 }

/-! ## Helper lemmas about `find?` under the Mongo-style updates -/

lemma find?_map_of_pred_stable {α : Type} (p : α → Bool) (g : α → α)
    (l : List α) (hg : ∀ x, p (g x) = p x) :
    (l.map g).find? p = (l.find? p).map g := by
  induction l with
  | nil => rfl
  | cons a t ih =>
    by_cases h : p a = true
    · have hga : p (g a) = true := by rw [hg]; exact h
      rw [List.map_cons, List.find?_cons_of_pos _ hga,
        List.find?_cons_of_pos _ h]
      rfl
    · have hga : ¬ p (g a) = true := by rw [hg]; exact h
      rw [List.map_cons, List.find?_cons_of_neg _ hga,
        List.find?_cons_of_neg _ h, ih]

lemma updEvent_pred_stable (eid eid2 : Nat) (f : EventRec → EventRec)
    (hid : ∀ x, (f x).id = x.id) (x : EventRec) :
    ((if x.id == eid then f x else x).id == eid2) = (x.id == eid2) := by
  by_cases h : (x.id == eid) = true <;> simp [h, hid]

lemma find?_updEvent (evs : List EventRec) (eid : Nat) (e : EventRec)
    (f : EventRec → EventRec) (hid : ∀ x, (f x).id = x.id)
    (he : evs.find? (fun x => x.id == eid) = some e) :
    (updEvent evs eid f).find? (fun x => x.id == eid) = some (f e) := by
  unfold updEvent
  rw [find?_map_of_pred_stable _ _ _ (updEvent_pred_stable eid eid f hid), he]
  have hpe := List.find?_some he
  simp only at hpe
  have heq : e.id = eid := by simpa using hpe
  simp [heq]

lemma find?_combined_of_ge (evs : List EventRec) (eid : Nat) (q : Int)
    (e : EventRec) (he : evs.find? (fun x => x.id == eid) = some e)
    (hq : q ≤ e.availableTickets) :
    evs.find? (fun x => x.id == eid && q ≤ x.availableTickets) = some e := by
  induction evs with
  | nil => simp at he
  | cons a t ih =>
    by_cases h : (a.id == eid) = true
    · rw [List.find?_cons_of_pos (p := fun x : EventRec => x.id == eid) _ h] at he
      injection he with h1
      subst h1
      have hpa : (a.id == eid && decide (q ≤ a.availableTickets)) = true := by
        simp [h, hq]
      rw [List.find?_cons_of_pos (p := fun x : EventRec => x.id == eid && q ≤ x.availableTickets) _ hpa]
    · rw [List.find?_cons_of_neg (p := fun x : EventRec => x.id == eid) _ h] at he
      have hpa : ¬ (a.id == eid && decide (q ≤ a.availableTickets)) = true := by
        intro hc
        rw [Bool.and_eq_true] at hc
        exact h hc.1
      rw [List.find?_cons_of_neg (p := fun x : EventRec => x.id == eid && q ≤ x.availableTickets) _ hpa]
      exact ih he

lemma find?_combined_of_lt (evs : List EventRec) (eid : Nat) (q : Int)
    (e : EventRec) (hnd : (evs.map EventRec.id).Nodup)
    (he : evs.find? (fun x => x.id == eid) = some e)
    (hq : e.availableTickets < q) :
    evs.find? (fun x => x.id == eid && q ≤ x.availableTickets) = none := by
  induction evs with
  | nil => simp at he
  | cons a t ih =>
    rw [List.map_cons, List.nodup_cons] at hnd
    obtain ⟨hna, hndt⟩ := hnd
    by_cases h : (a.id == eid) = true
    · rw [List.find?_cons_of_pos (p := fun x : EventRec => x.id == eid) _ h] at he
      injection he with h1
      subst h1
      have hpa : ¬ (a.id == eid && decide (q ≤ a.availableTickets)) = true := by
        simp [h]
        omega
      rw [List.find?_cons_of_neg (p := fun x : EventRec => x.id == eid && q ≤ x.availableTickets) _ hpa,
        List.find?_eq_none]
      intro x hx
      have haid : a.id = eid := by simpa using h
      have hxid : x.id ≠ eid := by
        intro hcontra
        apply hna
        rw [haid, ← hcontra]
        exact List.mem_map_of_mem EventRec.id hx
      simp [hxid]
    · rw [List.find?_cons_of_neg (p := fun x : EventRec => x.id == eid) _ h] at he
      have hpa : ¬ (a.id == eid && decide (q ≤ a.availableTickets)) = true := by
        intro hc
        rw [Bool.and_eq_true] at hc
        exact h hc.1
      rw [List.find?_cons_of_neg (p := fun x : EventRec => x.id == eid && q ≤ x.availableTickets) _ hpa]
      exact ih hndt he

lemma reserveCapacityHandler_ok (s : SysState) (eid : Nat) (q : Int)
    (e : EventRec) (he : findEvent s eid = some e)
    (hq : q ≤ e.availableTickets) :
    reserveCapacityHandler s eid q
      = ({ s with events := (updEvent s.events eid
            (fun ev => { ev with availableTickets := ev.availableTickets - q })) },
         Except.ok (e.availableTickets - q)) := by
  unfold reserveCapacityHandler
  rw [find?_combined_of_ge s.events eid q e he hq]

lemma reserveCapacityHandler_fail_lt (s : SysState) (eid : Nat) (q : Int)
    (e : EventRec) (hnd : (s.events.map EventRec.id).Nodup)
    (he : findEvent s eid = some e) (hq : e.availableTickets < q) :
    reserveCapacityHandler s eid q
      = (s, Except.error "Insufficient available tickets or event not found") := by
  unfold reserveCapacityHandler
  rw [find?_combined_of_lt s.events eid q e hnd he hq]

lemma nodup_updEvent (evs : List EventRec) (eid : Nat)
    (f : EventRec → EventRec) (hid : ∀ x, (f x).id = x.id)
    (hnd : (evs.map EventRec.id).Nodup) :
    ((updEvent evs eid f).map EventRec.id).Nodup := by
  have hmap : (updEvent evs eid f).map EventRec.id = evs.map EventRec.id := by
    unfold updEvent
    rw [List.map_map]
    apply List.map_congr_left
    intro a _
    by_cases h : (a.id == eid) = true <;> simp [Function.comp, h, hid]
  rw [hmap]
  exact hnd

lemma runReserves_spec (n : Nat) :
    ∀ (s : SysState) (eid : Nat) (e : EventRec),
      (s.events.map EventRec.id).Nodup →
      findEvent s eid = some e →
      0 ≤ e.availableTickets →
      ((runReserves s eid n).2 : Int) ≤ e.availableTickets ∧
      availOf (runReserves s eid n).1 eid
        = some (e.availableTickets - ((runReserves s eid n).2 : Int)) := by
  induction n with
  | zero =>
    intro s eid e hnd he hK
    constructor
    · simpa [runReserves] using hK
    · simp [runReserves, availOf, he]
  | succ n ih =>
    intro s eid e hnd he hK
    by_cases hq : (1 : Int) ≤ e.availableTickets
    · have hspec := reserveCapacityHandler_ok s eid 1 e he hq
      have he1 : findEvent { s with events := (updEvent s.events eid
            (fun ev => { ev with availableTickets := ev.availableTickets - 1 })) } eid
          = some { e with availableTickets := e.availableTickets - 1 } :=
        find?_updEvent s.events eid e _ (fun _ => rfl) he
      have hnd1 : (({ s with events := (updEvent s.events eid
            (fun ev => { ev with availableTickets := ev.availableTickets - 1 })) } :
              SysState).events.map EventRec.id).Nodup :=
        nodup_updEvent s.events eid _ (fun _ => rfl) hnd
      have hK1 : (0 : Int)
          ≤ ({ e with availableTickets := e.availableTickets - 1 } :
              EventRec).availableTickets := by
        show (0 : Int) ≤ e.availableTickets - 1
        omega
      obtain ⟨ihb, ihA⟩ := ih _ eid _ hnd1 he1 hK1
      have ihb' : ((runReserves { s with events := (updEvent s.events eid
            (fun ev => { ev with availableTickets := ev.availableTickets - 1 })) }
            eid n).2 : Int) ≤ e.availableTickets - 1 := ihb
      simp only [runReserves]
      rw [hspec]
      simp only [Except.isOk, if_true]
      constructor
      · push_cast
        omega
      · rw [ihA]
        simp only [Option.some.injEq, Except.isOk, Except.toBool]
        norm_num
        ring
    · have hq' : e.availableTickets < 1 := by omega
      have hspec := reserveCapacityHandler_fail_lt s eid 1 e hnd he hq'
      obtain ⟨ihb, ihA⟩ := ih s eid e hnd he hK
      simp only [runReserves]
      rw [hspec]
      simp only [Except.isOk]
      constructor
      · simpa using ihb
      · simpa using ihA

/-- C1: Scenario A.  Two `create` calls for quantity 1 against the event with
`capacity = 1, availableTickets = 1` (serialized by the `event:` lock): the
first yields the only booking, the second fails on the remaining-tickets
check — but the final `availableTickets` is `-1`, not the `0` the claim
states, because `createBooking` decrements `availableTickets` locally
(message.types.ts lines 253-255) on top of the decrement already performed by
the `EVENT_CAPACITY_RESERVE` handler it just called. -/
theorem scenarioA_one_booking_but_negative_tickets :
    (createBooking sScenA 0 ⟨1, 10, 1, 5000⟩).2.isOk = true ∧
    ((createBooking (createBooking sScenA 0 ⟨1, 10, 1, 5000⟩).1 0
        ⟨1, 11, 1, 5000⟩).2
      = Except.error "Only -1 tickets available") ∧
    (createBooking (createBooking sScenA 0 ⟨1, 10, 1, 5000⟩).1 0
        ⟨1, 11, 1, 5000⟩).1.bookings.length = 1 ∧
    availOf (createBooking (createBooking sScenA 0 ⟨1, 10, 1, 5000⟩).1 0
        ⟨1, 11, 1, 5000⟩).1 1 = some (-1) := by
  decide

/-- C3: a successful reserve of 2 tickets followed by a successful release of
2 tickets on an event that started with `availableTickets = 5` leaves
`availableTickets` at `3` instead of restoring `5`: the
`EVENT_CAPACITY_RELEASE` handler adds the quantity to the event's `capacity`
field (part_001 line 459) and never touches `availableTickets`. -/
theorem reserve_release_does_not_restore_availableTickets :
    availOf sRoundTrip 1 = some 5 ∧
    (reserveCapacityHandler sRoundTrip 1 2).2 = Except.ok 3 ∧
    (releaseCapacityHandler (reserveCapacityHandler sRoundTrip 1 2).1 1 2).2
      = Except.ok () ∧
    availOf (releaseCapacityHandler
        (reserveCapacityHandler sRoundTrip 1 2).1 1 2).1 1 = some 3 ∧
    capOf (releaseCapacityHandler
        (reserveCapacityHandler sRoundTrip 1 2).1 1 2).1 1 = some 12 := by
  decide

/-- C5: Scenario B.  Creating a booking (quantity 2, price 50, total 100,
in cents) for an event 48 h away and cancelling it does set
`status = cancelled` with `paymentStatus` mapped to `failed` when it was
never paid and to `refunded` after `confirmPayment` — but the final
`availableTickets` is `8`, not the pre-booking `10`: `createBooking` removes
`2 + 2` tickets (reserve RPC plus its own local decrement) while the
cancellation credits only `2` back (the release RPC raises `capacity`, and
only the local increment touches `availableTickets`). -/
theorem scenarioB_status_ok_but_tickets_not_restored :
    availOf sScenB 1 = some 10 ∧
    (createBooking sScenB 0 ⟨1, 10, 2, 10000⟩).2.isOk = true ∧
    ((cancelBooking (createBooking sScenB 0 ⟨1, 10, 2, 10000⟩).1 0 1 10
        (some "changed my mind")).2.toOption.map
        (fun b => (b.status, b.paymentStatus))
      = some (BookingStatus.cancelled, PayStatus.failed)) ∧
    availOf (cancelBooking (createBooking sScenB 0 ⟨1, 10, 2, 10000⟩).1 0 1 10
        (some "changed my mind")).1 1 = some 8 ∧
    ((cancelBooking (confirmPayment
          (createBooking sScenB 0 ⟨1, 10, 2, 10000⟩).1 1 "tx1").1 0 1 10
        none).2.toOption.map (fun b => (b.status, b.paymentStatus))
      = some (BookingStatus.cancelled, PayStatus.refunded)) ∧
    availOf (cancelBooking (confirmPayment
          (createBooking sScenB 0 ⟨1, 10, 2, 10000⟩).1 1 "tx1").1 0 1 10
        none).1 1 = some 8 := by
  decide

/-- C7: the expiry sweep picks up the stale pending booking (it matches the
sweep's query), acquires `booking:1`, and then calls `cancelBooking`, which
tries to acquire the same `booking:1` lock, fails, and throws — the error is
caught and logged, so the sweep cancels nothing at all: the booking is still
`pending`, no capacity is credited and no ledger entry is written.  Only the
rate-limiter window of the inner `cancelBooking` call records the attempt. -/
theorem cleanup_sweep_cancels_nothing :
    (sSweep.bookings.filter
        (fun b => b.status == BookingStatus.pending &&
          b.createdAt < 7200000 - 3600000)).length = 1 ∧
    ((findBooking (cleanupExpiredBookings sSweep 7200000) 1).map
        BookingRec.status = some BookingStatus.pending) ∧
    availOf (cleanupExpiredBookings sSweep 7200000) 1 = some 8 ∧
    (cleanupExpiredBookings sSweep 7200000).ledger = [] ∧
    (cleanupExpiredBookings sSweep 7200000).heldLocks = [] := by
  decide

/-- C9: `rateLimit` keeps exactly the entries newer than `now - windowMs`
plus the current call's timestamp, refreshes the TTL to
`ceil(windowMs / 1000)` seconds, and admits the call iff the count including
the current call stays within `maxRequests`; concretely, with limit 5 over
10000 ms, calls at times 0..4 are admitted, the 6th call at time 5 is
denied, and a call at time 10006 (after the window has passed) is admitted
again. -/
theorem rateLimit_sliding_window :
    (∀ (entries : List Int) (now maxRequests windowMs : Int),
        ((rateLimit entries now maxRequests windowMs).allowed = true ↔
          ((entries.filter (fun t => now - windowMs < t)).length : Int) + 1
            ≤ maxRequests) ∧
        now ∈ (rateLimit entries now maxRequests windowMs).entries ∧
        (∀ t ∈ (rateLimit entries now maxRequests windowMs).entries,
            now - windowMs < t ∨ t = now) ∧
        (rateLimit entries now maxRequests windowMs).ttlSeconds
          = Int.ediv (windowMs + 999) 1000) ∧
    rateLimitSeq [] [0, 1, 2, 3, 4, 5, 10006] 5 10000
      = [true, true, true, true, true, false, true] := by
  refine ⟨?_, by decide⟩
  intro entries now maxRequests windowMs
  refine ⟨?_, ?_, ?_, rfl⟩
  · simp only [rateLimit, decide_eq_true_eq, List.length_append,
      List.length_singleton]
    push_cast
    exact Iff.rfl
  · simp [rateLimit]
  · intro t ht
    simp only [rateLimit, List.mem_append, List.mem_filter,
      List.mem_singleton, decide_eq_true_eq] at ht
    rcases ht with ⟨_, h⟩ | h
    · exact Or.inl h
    · exact Or.inr h

/-- C10: `NatsClient.subscribe` registers the subscription but never invokes
the message-processing loop (the async arrow function at part_005 lines
134-144 lacks the trailing call parentheses), so no arriving message is ever
delivered to the handler — while the loop body itself, embedded as
`messageLoop`, would have delivered every message in receipt order and kept
running past handler errors (one logged error for the failing message below,
and all three messages still delivered to the handler). -/
theorem subscribe_loop_never_invoked :
    (∀ (msgs : List Nat) (cb : Nat → Except String Unit),
        subscribe true msgs cb
          = Except.ok { registered := true, loopStarted := false,
                        delivered := [], errorsLogged := 0 }) ∧
    (∀ (msgs : List Nat) (cb : Nat → Except String Unit),
        (messageLoop cb msgs).1 = msgs) ∧
    (messageLoop
        (fun n => if n = 1 then Except.error "handler boom" else Except.ok ())
        [0, 1, 2]) = ([0, 1, 2], 1) := by
  refine ⟨fun _ _ => rfl, ?_, by decide⟩
  intro msgs cb
  induction msgs with
  | nil => rfl
  | cons m ms ih =>
    simp only [messageLoop]
    cases cb m <;> simp [ih]

end Vervious

namespace Vervious

/-- C2: the `EVENT_CAPACITY_RESERVE` handler is one atomic conditional
update: a call that succeeds found `availableTickets ≥ quantity` and
decremented exactly by `quantity`, a call that fails leaves the entire state
unchanged; consequently, over any number `n` of quantity-1 reserve calls
against an event that starts with `K = availableTickets ≥ 0`, at most `K`
calls succeed, and `availableTickets` ends at `K` minus the number of
successes and never becomes negative. -/
theorem reserveCapacity_atomic_and_capacity_bound
    (s : SysState) (eid : Nat) (e : EventRec) (n : Nat)
    (hnd : (s.events.map EventRec.id).Nodup)
    (he : findEvent s eid = some e)
    (hK : 0 ≤ e.availableTickets) :
    (∀ (t : SysState) (q : Int) (x : EventRec),
        (t.events.map EventRec.id).Nodup →
        findEvent t eid = some x →
        ((reserveCapacityHandler t eid q).2.isOk = true →
            q ≤ x.availableTickets ∧
            availOf (reserveCapacityHandler t eid q).1 eid
              = some (x.availableTickets - q)) ∧
        ((reserveCapacityHandler t eid q).2.isOk = false →
            (reserveCapacityHandler t eid q).1 = t)) ∧
    ((runReserves s eid n).2 : Int) ≤ e.availableTickets ∧
    availOf (runReserves s eid n).1 eid
      = some (e.availableTickets - ((runReserves s eid n).2 : Int)) ∧
    0 ≤ e.availableTickets - ((runReserves s eid n).2 : Int) := by
  obtain ⟨hb, hA⟩ := runReserves_spec n s eid e hnd he hK
  refine ⟨?_, hb, hA, by omega⟩
  intro t q x hndt hx
  constructor
  · intro hok
    by_cases hq : q ≤ x.availableTickets
    · refine ⟨hq, ?_⟩
      rw [reserveCapacityHandler_ok t eid q x hx hq]
      have hfe : findEvent { t with events := (updEvent t.events eid
            (fun ev => { ev with availableTickets := ev.availableTickets - q })) } eid
          = some { x with availableTickets := x.availableTickets - q } :=
        find?_updEvent t.events eid x _ (fun _ => rfl) hx
      unfold availOf
      rw [hfe]
      rfl
    · exfalso
      rw [reserveCapacityHandler_fail_lt t eid q x hndt hx (not_le.mp hq)] at hok
      simp [Except.isOk, Except.toBool] at hok
  · intro hfail
    by_cases hq : q ≤ x.availableTickets
    · rw [reserveCapacityHandler_ok t eid q x hx hq] at hfail
      simp [Except.isOk, Except.toBool] at hfail
    · rw [reserveCapacityHandler_fail_lt t eid q x hndt hx (not_le.mp hq)]

/-- Witness for C2: the concrete state `sBound` with `K = 3` available
tickets and `n = 5` reserve calls — the hypotheses hold and at most 3 calls
succeed, leaving `availableTickets` at `3 - successes ≥ 0`. -/
theorem reserveCapacity_atomic_and_capacity_bound_witness :
    (sBound.events.map EventRec.id).Nodup ∧
    findEvent sBound 1 = some eBound ∧
    (0 : Int) ≤ eBound.availableTickets ∧
    (((runReserves sBound 1 5).2 : Int) ≤ eBound.availableTickets ∧
      availOf (runReserves sBound 1 5).1 1
        = some (eBound.availableTickets - ((runReserves sBound 1 5).2 : Int)) ∧
      0 ≤ eBound.availableTickets - ((runReserves sBound 1 5).2 : Int)) :=
  ⟨by decide, by decide, by decide,
    (reserveCapacity_atomic_and_capacity_bound sBound 1 eBound 5
      (by decide) (by decide) (by decide)).2⟩

end Vervious

namespace Vervious

lemma find?_updBooking (bs : List BookingRec) (bid : Nat) (x : BookingRec)
    (f : BookingRec → BookingRec)
    (hfk : ∀ y, (y.id == bid) = true → ((f y).id == bid) = true)
    (hx : bs.find? (fun y => y.id == bid) = some x) :
    (updBooking bs bid f).find? (fun y => y.id == bid) = some (f x) := by
  unfold updBooking
  have hg : ∀ y : BookingRec,
      ((if (y.id == bid) = true then f y else y).id == bid) = (y.id == bid) := by
    intro y
    by_cases h : (y.id == bid) = true
    · simp [h, hfk y h]
    · rw [Bool.not_eq_true] at h
      simp [h]
  rw [find?_map_of_pred_stable _ _ _ hg, hx]
  have hpx := List.find?_some hx
  simp only at hpx
  have hxid : x.id = bid := by simpa using hpx
  simp [hxid]

/-- C4 counterexample: the part of the Orchestrator's `createBooking` that
runs after (and outside) the reserve RPC — persisting the booking plus the
service's own local `$inc` — changes the event's `availableTickets` from 4 to
2, so `availableTickets` is not mutated only through the Capacity
Coordinator's handlers or an admin update. -/
theorem createBooking_local_step_mutates_availableTickets_cx :
    availOf sFrame 1 = some 4 ∧
    availOf (createBookingAfterReserve sFrame 0 ⟨1, 99, 2, 10000⟩).1 1
      = some 2 := by
  decide

/-- C4 (amended): besides the Coordinator's reserve handler and admin
updates, `availableTickets` is also mutated by the Orchestrator itself: the
post-RPC tail of `createBooking` applies a second, local decrement by the
quantity, and a successful `cancelBooking` critical section applies a local
increment by the booking's quantity (the release RPC it calls changes only
`capacity`); the release handler itself and `confirmPayment` leave
`availableTickets` (indeed all event documents) unchanged. -/
theorem availableTickets_mutators
    (s : SysState) (now : Int) (inp : CreateInput) (e : EventRec)
    (he : findEvent s inp.eventId = some e) :
    availOf (createBookingAfterReserve s now inp).1 inp.eventId
      = some (e.availableTickets - inp.ticketQuantity) ∧
    (∀ (t : SysState) (eid : Nat) (q : Int),
        availOf (releaseCapacityHandler t eid q).1 eid = availOf t eid) ∧
    (∀ (t : SysState) (nw : Int) (bid uid : Nat) (reason : Option String)
        (b : BookingRec) (ev : EventRec),
        findBooking t bid = some b → b.userId = uid →
        b.status ≠ BookingStatus.cancelled →
        findEvent t b.eventId = some ev →
        86400000 ≤ ev.dateTime - nw →
        availOf (cancelBookingLocked t nw bid uid reason).1 b.eventId
          = some (ev.availableTickets + b.ticketQuantity)) ∧
    (∀ (t : SysState) (bid : Nat) (tx : String),
        (confirmPayment t bid tx).1.events = t.events) := by
  refine ⟨?_, ?_, ?_, ?_⟩
  · have hfe := find?_updEvent s.events inp.eventId e
        (fun ev => { ev with availableTickets := ev.availableTickets - inp.ticketQuantity })
        (fun _ => rfl) he
    show ((updEvent s.events inp.eventId
        (fun ev => { ev with availableTickets := ev.availableTickets - inp.ticketQuantity })).find?
        (fun x => x.id == inp.eventId)).map EventRec.availableTickets = _
    rw [hfe]
    rfl
  · intro t eid q
    cases hg : findEvent t eid with
    | none =>
      have hrel : releaseCapacityHandler t eid q = (t, Except.error "Event not found") := by
        unfold releaseCapacityHandler
        rw [hg]
      rw [hrel]
    | some ev =>
      have hrel : releaseCapacityHandler t eid q
          = ({ t with events := (updEvent t.events eid
                (fun x => { x with capacity := x.capacity + q })) },
             Except.ok ()) := by
        unfold releaseCapacityHandler
        rw [hg]
      rw [hrel]
      have hfe := find?_updEvent t.events eid ev
          (fun x => { x with capacity := x.capacity + q }) (fun _ => rfl) hg
      unfold availOf findEvent
      rw [hfe, show t.events.find? (fun x => x.id == eid) = some ev from hg]
      rfl
  · intro t nw bid uid reason b ev hb huid hst hev hdate
    have hrel : releaseCapacityHandler t b.eventId b.ticketQuantity
        = ({ t with events := (updEvent t.events b.eventId
              (fun x => { x with capacity := x.capacity + b.ticketQuantity })) },
           Except.ok ()) := by
      unfold releaseCapacityHandler
      rw [hev]
    have hev1 : (cancelBookingLocked t nw bid uid reason).1.events
        = updEvent (updEvent t.events b.eventId
            (fun x => { x with capacity := x.capacity + b.ticketQuantity })) b.eventId
            (fun x => { x with availableTickets := x.availableTickets + b.ticketQuantity }) := by
      unfold cancelBookingLocked
      simp only [hb, hev, hrel, huid, hst, not_lt.mpr hdate, ne_eq,
        not_true_eq_false, if_false, ite_false]
    have hfe1 := find?_updEvent t.events b.eventId ev
        (fun x => { x with capacity := x.capacity + b.ticketQuantity }) (fun _ => rfl) hev
    have hfe2 := find?_updEvent (updEvent t.events b.eventId
        (fun x => { x with capacity := x.capacity + b.ticketQuantity })) b.eventId
        { ev with capacity := ev.capacity + b.ticketQuantity }
        (fun x => { x with availableTickets := x.availableTickets + b.ticketQuantity })
        (fun _ => rfl) hfe1
    unfold availOf findEvent
    rw [hev1, hfe2]
    rfl
  · intro t bid tx
    cases hg : findBooking t bid with
    | none =>
      have hcp : confirmPayment t bid tx = (t, Except.error "Booking not found") := by
        unfold confirmPayment
        rw [hg]
      rw [hcp]
    | some b2 =>
      have hcp : (confirmPayment t bid tx).1.events = t.events := by
        unfold confirmPayment
        rw [hg]
      exact hcp

/-- Witness for C4: in `sFrame` (4 tickets available), the post-RPC tail of
`createBooking` for quantity 2 leaves `availableTickets` at `4 - 2 = 2`. -/
theorem availableTickets_mutators_witness :
    findEvent sFrame 1 = some ⟨1, 10, 4, 5000, true, 1000000000⟩ ∧
    availOf (createBookingAfterReserve sFrame 0 ⟨1, 99, 2, 10000⟩).1 1
      = some 2 :=
  ⟨by decide,
    (availableTickets_mutators sFrame 0 ⟨1, 99, 2, 10000⟩
      ⟨1, 10, 4, 5000, true, 1000000000⟩ (by decide)).1⟩

end Vervious

namespace Vervious

/-- C6 counterexample: `confirmPayment` on a booking whose status is
`cancelled` changes its status to `confirmed` — so `cancelled` is not
terminal under every operation. -/
theorem confirmPayment_escapes_cancelled_cx :
    ((findBooking sCancelled 1).map BookingRec.status
      = some BookingStatus.cancelled) ∧
    ((findBooking (confirmPayment sCancelled 1 "tx-99").1 1).map
        BookingRec.status = some BookingStatus.confirmed) := by
  decide

/-- C6 (amended): `cancelled` is terminal with respect to `cancelBooking`,
whose critical section rejects an already-cancelled booking and leaves the
state untouched; `confirmPayment`, however, updates unconditionally: whenever
the booking exists — whatever its status, including `cancelled` — it is
rewritten to `confirmed`/`paid` with the transaction id recorded. -/
theorem cancelled_terminal_for_cancel_not_confirmPayment
    (s : SysState) (now : Int) (bid uid : Nat) (reason : Option String)
    (b : BookingRec) (hb : findBooking s bid = some b) (huid : b.userId = uid)
    (hc : b.status = BookingStatus.cancelled) :
    cancelBookingLocked s now bid uid reason
      = (s, Except.error "Booking is already cancelled") ∧
    (∀ (t : SysState) (bid2 : Nat) (tx : String) (x : BookingRec),
        findBooking t bid2 = some x →
        (confirmPayment t bid2 tx).2
          = Except.ok { x with status := BookingStatus.confirmed,
                               paymentStatus := PayStatus.paid,
                               paymentTransactionId := some tx } ∧
        findBooking (confirmPayment t bid2 tx).1 bid2
          = some { x with status := BookingStatus.confirmed,
                          paymentStatus := PayStatus.paid,
                          paymentTransactionId := some tx }) := by
  constructor
  · unfold cancelBookingLocked
    simp only [hb, huid, ne_eq, not_true_eq_false, if_false, ite_false, hc,
      if_pos, if_true, ite_true]
  · intro t bid2 tx x hx
    have hok : (confirmPayment t bid2 tx).2
        = Except.ok { x with status := BookingStatus.confirmed,
                             paymentStatus := PayStatus.paid,
                             paymentTransactionId := some tx } := by
      unfold confirmPayment
      rw [hx]
    refine ⟨hok, ?_⟩
    have hbk : (confirmPayment t bid2 tx).1.bookings
        = updBooking t.bookings bid2
            (fun _ => { x with status := BookingStatus.confirmed,
                               paymentStatus := PayStatus.paid,
                               paymentTransactionId := some tx }) := by
      unfold confirmPayment
      rw [hx]
    have hpx := List.find?_some hx
    simp only at hpx
    have hupd := find?_updBooking t.bookings bid2 x
        (fun _ => { x with status := BookingStatus.confirmed,
                           paymentStatus := PayStatus.paid,
                           paymentTransactionId := some tx })
        (fun _ _ => hpx) hx
    unfold findBooking
    rw [hbk]
    exact hupd

/-- Witness for C6: in `sCancelled` the booking 1 is cancelled and owned by
user 10, and the cancel critical section rejects it with the source's
"already cancelled" error without touching the state. -/
theorem cancelled_terminal_witness :
    findBooking sCancelled 1
      = some ⟨1, 1, 10, 2, 10000, BookingStatus.cancelled, PayStatus.failed,
              none, 0, some "user requested", some 50, 0⟩ ∧
    cancelBookingLocked sCancelled 77 1 10 none
      = (sCancelled, Except.error "Booking is already cancelled") :=
  ⟨by decide,
    (cancelled_terminal_for_cancel_not_confirmPayment sCancelled 77 1 10 none
      ⟨1, 1, 10, 2, 10000, BookingStatus.cancelled, PayStatus.failed,
       none, 0, some "user requested", some 50, 0⟩
      (by decide) (by decide) (by decide)).1⟩

/-- C8: `releaseLock` deletes `lock:` ++ key only when the stored token
equals the caller's token, in the single atomic Lua script: when the lock is
held under another owner's `tokenA`, releasing with `tokenB ≠ tokenA`
returns false and leaves the store — and the lock entry — untouched; and in
general a release that returns true found exactly the caller's token and
performed the delete. -/
theorem releaseLock_owner_check (st : RedisStore) (key tA tB : String)
    (hheld : storeGet st ("lock:" ++ key) = some tA) (hne : tA ≠ tB) :
    (releaseLock st key tB).2 = false ∧
    (releaseLock st key tB).1 = st ∧
    storeGet (releaseLock st key tB).1 ("lock:" ++ key) = some tA ∧
    (∀ (st2 : RedisStore) (k v : String),
        (releaseLock st2 k v).2 = true →
          storeGet st2 ("lock:" ++ k) = some v ∧
          (releaseLock st2 k v).1 = storeDel st2 ("lock:" ++ k)) := by
  have hbe : (tA == tB) = false := by
    simpa using hne
  have hrel : releaseLock st key tB = (st, false) := by
    simp only [releaseLock, hheld, hbe]
    simp
  refine ⟨by rw [hrel], by rw [hrel], by rw [hrel]; exact hheld, ?_⟩
  intro st2 k v hret
  simp only [releaseLock] at hret ⊢
  cases hg : storeGet st2 ("lock:" ++ k) with
  | none =>
    rw [hg] at hret
    simp at hret
  | some cur =>
    rw [hg] at hret
    by_cases hcv : (cur == v) = true
    · have : cur = v := by simpa using hcv
      subst this
      simp [hcv]
    · rw [Bool.not_eq_true] at hcv
      simp [hcv] at hret

/-- Witness for C8: a store holding `lock:k ↦ tokenA`; releasing with
`tokenB` returns false and leaves the store unchanged. -/
theorem releaseLock_owner_check_witness :
    storeGet [("lock:k", "tokenA")] ("lock:" ++ "k") = some "tokenA" ∧
    (releaseLock [("lock:k", "tokenA")] "k" "tokenB").2 = false ∧
    (releaseLock [("lock:k", "tokenA")] "k" "tokenB").1
      = [("lock:k", "tokenA")] :=
  ⟨by decide,
    (releaseLock_owner_check [("lock:k", "tokenA")] "k" "tokenA" "tokenB"
      (by decide) (by decide)).1,
    (releaseLock_owner_check [("lock:k", "tokenA")] "k" "tokenA" "tokenB"
      (by decide) (by decide)).2.1⟩

end Vervious
